import Mathlib

/-!
Verification development for the spatial slicer of `sims_maf`
(`python/lsst/sims/maf/slicers/baseSpatialSlicer.py`).

The Python code is shallowly embedded:

* Python `list` / 1-D `numpy` indexing (which accepts negative indices and
  raises `IndexError` out of `[-len, len)`) is `pyGet`.
* Slice-point metadata values (`self.slicePoints[key]`, scalars or arrays,
  possibly nested) are `SPVal`; `keyShape` is the Python
  `np.shape(v)[0]`-or-`0` computation from `_sliceSimData` lines 140-143.
* The query closure `_sliceSimData` (lines 119-148) is `sliceSimData`;
  the external scipy `cKDTree.query_ball_point` call is the `ballQuery`
  field of `SpatialSlicer` (scipy is an external collaborator).
* The footprint lookup build `_presliceFootprint` (lines 157-199) is
  `presliceFootprint`; the external `_chipNameFromRaDec` camera-model call
  is the `chipNameAt` field of `FootCfg`, and the per-pointing ball query
  is `queryBall`.
* `_treexyz`, `_setRad`, `_buildTree` and `setupSlicer` are embedded over
  the reals (`treexyz`, `setRad`, `buildTree`, `setupSlicer`).
-/

set_option maxHeartbeats 1000000

namespace SimsMaf

/-- Python exception outcomes relevant to the slicer code. -/
inductive PyErr : Type where
  | indexError : PyErr
  | keyError : PyErr
  | typeError : PyErr
  | valueError : String → PyErr
deriving DecidableEq, Repr

/-- Message of the `ValueError` raised at baseSpatialSlicer.py line 218. -/
def radiansMsg : String := "Expecting RA and Dec values to be in radians."

/-- Message of the `ValueError` raised at baseSpatialSlicer.py line 227. -/
def emptyMsg : String := "SimDataRA and Dec should have length greater than 0."

/-- Resolve a Python sequence index against length `n`: indices in `[0, n)`
are used as-is, indices in `[-n, 0)` wrap to `n + i`, anything else is an
`IndexError` (`none`). -/
def pyResolve (n : Nat) (i : Int) : Option Nat :=
  if -(n : Int) ≤ i ∧ i < (n : Int) then
    if 0 ≤ i then some i.toNat else some ((n : Int) + i).toNat
  else none

/-- Python `l[i]` on a list / 1-D array: negative indices wrap, out-of-range
raises `IndexError`. -/
def pyGet {α : Type} (l : List α) (i : Int) : Except PyErr α :=
  match pyResolve l.length i with
  | some k =>
    match l.get? k with
    | some x => Except.ok x
    | none => Except.error PyErr.indexError
  | none => Except.error PyErr.indexError

/-- A slice-point metadata value: a numpy scalar or a (possibly nested)
array, as stored in `self.slicePoints[key]`. -/
inductive SPVal : Type where
  | scalar : Int → SPVal
  | arr : List SPVal → SPVal

/-- `keyShape` from `_sliceSimData` lines 140-143: `0` when
`len(np.shape(v)) == 0` (a scalar), otherwise `np.shape(v)[0]`
(the leading dimension). -/
def keyShape : SPVal → Nat
  | SPVal.scalar _ => 0
  | SPVal.arr xs => xs.length

/-- Python `v[islice]` on a metadata value: indexing a scalar is a
`TypeError`, indexing an array follows `pyGet`. -/
def spvalGet : SPVal → Int → Except PyErr SPVal
  | SPVal.scalar _, _ => Except.error PyErr.typeError
  | SPVal.arr xs, i => pyGet xs i

/-- One iteration of the metadata loop in `_sliceSimData` lines 139-147:
if the leading dimension equals `nslice` the per-slice-point element is
taken, otherwise the whole value is passed through. -/
def metaEntry (nslice : Nat) (islice : Int) (v : SPVal) : Except PyErr SPVal :=
  if keyShape v == nslice then spvalGet v islice else Except.ok v

/-- The full metadata loop of `_sliceSimData`, over the ordered keys of
`self.slicePoints`; the first failing key aborts with its exception. -/
def metaDict (nslice : Nat) (islice : Int) :
    List (String × SPVal) → Except PyErr (List (String × SPVal))
  | [] => Except.ok []
  | kv :: rest =>
    match metaEntry nslice islice kv.2, metaDict nslice islice rest with
    | Except.ok w, Except.ok tail => Except.ok ((kv.1, w) :: tail)
    | Except.error e, _ => Except.error e
    | Except.ok _, Except.error e => Except.error e

/-- Python dict lookup `sp[key]` on the ordered key/value list. -/
def lookupKey (sp : List (String × SPVal)) (key : String) : Option SPVal :=
  match sp.find? (fun kv => kv.1 == key) with
  | some kv => some kv.2
  | none => none

/-- The result dict of `_sliceSimData`: `idxs`, the `chipNames` entry set
only in footprint mode (line 128), and the metadata dict. -/
structure QueryResult : Type where
  idxs : List Nat
  camChips : Option (List (Option String))
  slicePoint : List (String × SPVal)

/-- A configured spatial slicer after `setupSlicer`, as read by the query
closure.  `ballQuery` abstracts `_treexyz` plus
`opsimtree.query_ball_point` (line 130-133): a function of the two fetched
coordinate values. -/
structure SpatialSlicer : Type where
  nslice : Nat
  useCamera : Bool
  sliceLookup : List (List Nat)
  chipNamesTab : List (List (Option String))
  slicePoints : List (String × SPVal)
  ballQuery : SPVal → SPVal → List Nat

/-- The per-slice-point query `_sliceSimData(islice)`, lines 119-148,
transcribed operation by operation in Python evaluation order. -/
def sliceSimData (s : SpatialSlicer) (islice : Int) : Except PyErr QueryResult :=
  if s.useCamera then
    match pyGet s.sliceLookup islice with
    | Except.error e => Except.error e
    | Except.ok indices =>
      match pyGet s.chipNamesTab islice with
      | Except.error e => Except.error e
      | Except.ok chips =>
        match metaDict s.nslice islice s.slicePoints with
        | Except.error e => Except.error e
        | Except.ok meta => Except.ok ⟨indices, some chips, meta⟩
  else
    match lookupKey s.slicePoints ("ra") with
    | none => Except.error PyErr.keyError
    | some raArr =>
      match spvalGet raArr islice with
      | Except.error e => Except.error e
      | Except.ok ra =>
        match lookupKey s.slicePoints ("dec") with
        | none => Except.error PyErr.keyError
        | some deArr =>
          match spvalGet deArr islice with
          | Except.error e => Except.error e
          | Except.ok de =>
            match metaDict s.nslice islice s.slicePoints with
            | Except.error e => Except.error e
            | Except.ok meta => Except.ok ⟨s.ballQuery ra de, none, meta⟩

/-- Whether an outcome is a raised `IndexError`. -/
def isIndexError {α : Type} : Except PyErr α → Bool
  | Except.error PyErr.indexError => true
  | _ => false

/-- `some (arr xs)` with `xs.length = n`. -/
def arrOfLen (v : Option SPVal) (n : Nat) : Bool :=
  match v with
  | some (SPVal.arr xs) => xs.length == n
  | _ => false

/-- Well-formedness of a configured slicer: the lookup tables have one
entry per slice point and the required `ra`/`dec` slice-point coordinate
arrays (set for every spatial slicer, lines 84-86) have length `nslice`. -/
def SpatialSlicer.wf (s : SpatialSlicer) : Bool :=
  (s.sliceLookup.length == s.nslice) && (s.chipNamesTab.length == s.nslice)
    && arrOfLen (lookupKey s.slicePoints ("ra")) s.nslice
    && arrOfLen (lookupKey s.slicePoints ("dec")) s.nslice

/-- The detector allow-list configuration `chipNames='all'` or a user
subset (constructor parameter `chipNames`, stored as `self.chipsToUse`). -/
inductive ChipsToUse : Type where
  | all : ChipsToUse
  | only : List String → ChipsToUse
deriving DecidableEq

/-- Python `chipName in self.chipsToUse` for a restricted allow-list
(line 190); the no-detector value `None` is in no list of names. -/
def allowPass : ChipsToUse → Option String → Bool
  | ChipsToUse.all, _ => true
  | ChipsToUse.only names, some s => names.contains s
  | ChipsToUse.only _, none => false

/-- Configuration of the footprint build.  `queryBall ind` abstracts the
scipy ball query for pointing `ind` over the slice-point tree (line 177);
`chipNameAt ind j` abstracts `_chipNameFromRaDec` for pointing `ind` at
slice point `j` (lines 184-187, an external camera-model call). -/
structure FootCfg : Type where
  nslice : Nat
  chipsToUse : ChipsToUse
  chipNameAt : Nat → Nat → Option String
  queryBall : Nat → List Nat

/-- Candidate (slice point, chip name) pairs of one pointing after the
optional allow-list filter of lines 188-193 (applied to `hpIndices` and
`chipNames` in parallel; skipped when `chipsToUse` is `'all'`). -/
def goodKept (cfg : FootCfg) (ind : Nat) : List (Nat × Option String) :=
  match cfg.chipsToUse with
  | ChipsToUse.all => (cfg.queryBall ind).map (fun j => (j, cfg.chipNameAt ind j))
  | ChipsToUse.only names =>
    ((cfg.queryBall ind).map (fun j => (j, cfg.chipNameAt ind j))).filter
      (fun p => allowPass (ChipsToUse.only names) p.2)

/-- Candidate (slice point, chip name) pairs surviving all filters of one
pointing, lines 177-196: the `hpIndices.size > 0` guard (line 178), the
allow-list filter, and the `chipNames != [None]` filter (line 195). -/
def goodPairs (cfg : FootCfg) (ind : Nat) : List (Nat × Option String) :=
  if 0 < (cfg.queryBall ind).length then
    (goodKept cfg ind).filter (fun p => p.2.isSome)
  else []

/-- Python `table[i].append(x)` on a list of lists (no-op out of range;
the range hypothesis of the theorems rules that out, as scipy does). -/
def updList {α : Type} : List (List α) → Nat → α → List (List α)
  | [], _, _ => []
  | e :: rest, 0, x => (e ++ [x]) :: rest
  | e :: rest, Nat.succ j, x => e :: updList rest j x

/-- `table[i]` with `[]` out of range. -/
def nthList {α : Type} : List (List α) → Nat → List α
  | [], _ => []
  | e :: _, 0 => e
  | _ :: rest, Nat.succ j => nthList rest j

/-- The pair of tables `(self.sliceLookup, self.chipNames)`. -/
def FootState : Type := List (List Nat) × List (List (Option String))

/-- The two appends of lines 198-199 for one surviving pair. -/
def appendAt (st : FootState) (j ind : Nat) (ch : Option String) : FootState :=
  (updList st.1 j ind, updList st.2 j ch)

/-- Processing of one pointing `ind` (one iteration of the loop at
line 173): append its index and chip name at every surviving slice point,
in candidate order. -/
def pointingStep (cfg : FootCfg) (st : FootState) (ind : Nat) : FootState :=
  (goodPairs cfg ind).foldl (fun st2 p => appendAt st2 p.1 ind p.2) st

/-- `_presliceFootprint` lookup build, lines 160-199: start from `nslice`
empty entries and process the `nobs` pointings in input order. -/
def presliceFootprint (cfg : FootCfg) (nobs : Nat) : FootState :=
  (List.range nobs).foldl (pointingStep cfg)
    (List.replicate cfg.nslice [], List.replicate cfg.nslice [])

/-- Closed form of one slice point's contributions: pointing `ind`
contributes one `(ind, chipName)` pair per surviving candidate pair whose
slice point is `i`, in pointing order. -/
def entryFor (cfg : FootCfg) (i : Nat) : Nat → List (Nat × Option String)
  | 0 => []
  | Nat.succ n =>
    entryFor cfg i n ++
      ((goodPairs cfg n).filter (fun p => p.1 == i)).map (fun p => (n, p.2))

/-! ### Lemmas about Python indexing and the query closure -/

lemma pyGet_out {α : Type} (l : List α) (i : Int)
    (h : i < -(l.length : Int) ∨ (l.length : Int) ≤ i) :
    pyGet l i = Except.error PyErr.indexError := by
  have hc : ¬(-(l.length : Int) ≤ i ∧ i < (l.length : Int)) := by omega
  unfold pyGet pyResolve
  rw [if_neg hc]

lemma pyResolve_some {n : Nat} {i : Int} {k : Nat}
    (h : pyResolve n i = some k) : k < n := by
  unfold pyResolve at h
  split at h
  · rename_i hc
    split at h
    · rename_i h0
      injection h with h2
      omega
    · rename_i h0
      injection h with h2
      omega
  · cases h

lemma pyGet_in {α : Type} (l : List α) (i : Int)
    (h1 : -(l.length : Int) ≤ i) (h2 : i < (l.length : Int)) :
    ∃ x, pyGet l i = Except.ok x := by
  have hres : ∃ k, pyResolve l.length i = some k := by
    unfold pyResolve
    rw [if_pos ⟨h1, h2⟩]
    split
    · exact ⟨_, rfl⟩
    · exact ⟨_, rfl⟩
  obtain ⟨k, hk⟩ := hres
  have hkn : k < l.length := pyResolve_some hk
  refine ⟨l.get ⟨k, hkn⟩, ?_⟩
  unfold pyGet
  simp only [hk, List.get?_eq_get hkn]

lemma pyGet_neg {α : Type} (l : List α) (i : Int)
    (h1 : -(l.length : Int) ≤ i) (h2 : i < 0) :
    pyGet l i = pyGet l ((l.length : Int) + i) := by
  have hA : -(l.length : Int) ≤ i ∧ i < (l.length : Int) := ⟨h1, by omega⟩
  have hB : -(l.length : Int) ≤ (l.length : Int) + i ∧
      (l.length : Int) + i < (l.length : Int) := by omega
  unfold pyGet pyResolve
  rw [if_pos hA, if_pos hB, if_neg (by omega : ¬(0 ≤ i)),
    if_pos (by omega : (0 : Int) ≤ (l.length : Int) + i)]

lemma metaEntry_ok {nslice : Nat} (h0 : 0 < nslice) {islice : Int}
    (h1 : -(nslice : Int) ≤ islice) (h2 : islice < (nslice : Int)) (v : SPVal) :
    ∃ w, metaEntry nslice islice v = Except.ok w := by
  unfold metaEntry
  by_cases hk : keyShape v = nslice
  · rw [if_pos (by simpa using hk)]
    cases v with
    | scalar x =>
      exact absurd hk (by simp [keyShape]; omega)
    | arr xs =>
      have hlen : xs.length = nslice := hk
      unfold spvalGet
      exact pyGet_in xs islice (by rw [hlen]; exact h1) (by rw [hlen]; exact h2)
  · rw [if_neg (by simpa using hk)]
    exact ⟨v, rfl⟩

lemma metaDict_ok {nslice : Nat} (h0 : 0 < nslice) {islice : Int}
    (h1 : -(nslice : Int) ≤ islice) (h2 : islice < (nslice : Int))
    (sp : List (String × SPVal)) :
    ∃ out, metaDict nslice islice sp = Except.ok out := by
  induction sp with
  | nil => exact ⟨[], rfl⟩
  | cons kv rest ih =>
    obtain ⟨w, hw⟩ := metaEntry_ok h0 h1 h2 kv.2
    obtain ⟨tail, ht⟩ := ih
    refine ⟨(kv.1, w) :: tail, ?_⟩
    unfold metaDict
    rw [hw, ht]

lemma metaDict_mem {nslice : Nat} {islice : Int} {sp out}
    (h : metaDict nslice islice sp = Except.ok out) {k : String} {v : SPVal}
    (hkv : (k, v) ∈ sp) :
    ∃ w, metaEntry nslice islice v = Except.ok w ∧ (k, w) ∈ out := by
  induction sp generalizing out with
  | nil => cases hkv
  | cons kv rest ih =>
    obtain ⟨k2, v2⟩ := kv
    unfold metaDict at h
    cases he : metaEntry nslice islice v2 with
    | error e =>
      rw [he] at h
      exact (Except.noConfusion h)
    | ok w =>
      cases ht : metaDict nslice islice rest with
      | error e =>
        rw [he, ht] at h
        exact (Except.noConfusion h)
      | ok tail =>
        rw [he, ht] at h
        injection h with h2
        subst h2
        rcases List.mem_cons.mp hkv with hh | hh
        · injection hh with e1 e2
          subst e1
          subst e2
          exact ⟨w, he, List.mem_cons_self _ _⟩
        · obtain ⟨w2, hw2, hmem⟩ := ih ht hh
          exact ⟨w2, hw2, List.mem_cons_of_mem _ hmem⟩

lemma arrOfLen_iff {v : Option SPVal} {n : Nat} :
    arrOfLen v n = true ↔ ∃ xs, v = some (SPVal.arr xs) ∧ xs.length = n := by
  cases v with
  | none => simp [arrOfLen]
  | some w =>
    cases w with
    | scalar x => simp [arrOfLen]
    | arr xs => simp [arrOfLen]

lemma wf_parts {s : SpatialSlicer} (h : s.wf = true) :
    s.sliceLookup.length = s.nslice ∧ s.chipNamesTab.length = s.nslice ∧
    (∃ ras, lookupKey s.slicePoints ("ra") = some (SPVal.arr ras) ∧
      ras.length = s.nslice) ∧
    (∃ des, lookupKey s.slicePoints ("dec") = some (SPVal.arr des) ∧
      des.length = s.nslice) := by
  unfold SpatialSlicer.wf at h
  simp only [Bool.and_eq_true, beq_iff_eq] at h
  obtain ⟨⟨⟨h1, h2⟩, h3⟩, h4⟩ := h
  exact ⟨h1, h2, arrOfLen_iff.mp h3, arrOfLen_iff.mp h4⟩

lemma sliceSimData_ok (s : SpatialSlicer) (hwf : s.wf = true) (h0 : 0 < s.nslice)
    (islice : Int) (h1 : -(s.nslice : Int) ≤ islice)
    (h2 : islice < (s.nslice : Int)) :
    ∃ r, sliceSimData s islice = Except.ok r ∧
      metaDict s.nslice islice s.slicePoints = Except.ok r.slicePoint := by
  obtain ⟨hl, hc, ⟨ras, hra, hralen⟩, ⟨des, hde, hdelen⟩⟩ := wf_parts hwf
  obtain ⟨meta, hmeta⟩ := metaDict_ok h0 h1 h2 s.slicePoints
  by_cases hcam : s.useCamera = true
  · obtain ⟨idx, hidx⟩ :=
      pyGet_in s.sliceLookup islice (by rw [hl]; exact h1) (by rw [hl]; exact h2)
    obtain ⟨chips, hchips⟩ :=
      pyGet_in s.chipNamesTab islice (by rw [hc]; exact h1) (by rw [hc]; exact h2)
    refine ⟨⟨idx, some chips, meta⟩, ?_, hmeta⟩
    unfold sliceSimData
    rw [if_pos hcam]
    simp only [hidx, hchips, hmeta]
  · obtain ⟨ra, hra2⟩ :=
      pyGet_in ras islice (by rw [hralen]; exact h1) (by rw [hralen]; exact h2)
    obtain ⟨de, hde2⟩ :=
      pyGet_in des islice (by rw [hdelen]; exact h1) (by rw [hdelen]; exact h2)
    refine ⟨⟨s.ballQuery ra de, none, meta⟩, ?_, hmeta⟩
    unfold sliceSimData
    rw [if_neg hcam]
    simp only [hra, hde, spvalGet, hra2, hde2, hmeta]

lemma sliceSimData_err (s : SpatialSlicer) (hwf : s.wf = true)
    (islice : Int)
    (h : islice < -(s.nslice : Int) ∨ (s.nslice : Int) ≤ islice) :
    sliceSimData s islice = Except.error PyErr.indexError := by
  obtain ⟨hl, hc, ⟨ras, hra, hralen⟩, ⟨des, hde, hdelen⟩⟩ := wf_parts hwf
  unfold sliceSimData
  by_cases hcam : s.useCamera = true
  · rw [if_pos hcam]
    simp only [pyGet_out s.sliceLookup islice (by rw [hl]; exact h)]
  · rw [if_neg hcam]
    simp only [hra, hde, spvalGet,
      pyGet_out ras islice (by rw [hralen]; exact h)]

lemma metaEntry_neg_one {nslice : Nat} (h0 : 0 < nslice) (v : SPVal) :
    metaEntry nslice (-1) v = metaEntry nslice ((nslice : Int) - 1) v := by
  unfold metaEntry
  by_cases hk : keyShape v = nslice
  · rw [if_pos (by simpa using hk), if_pos (by simpa using hk)]
    cases v with
    | scalar x => rfl
    | arr xs =>
      have hlen : xs.length = nslice := hk
      simp only [spvalGet]
      rw [pyGet_neg xs (-1) (by omega) (by omega)]
      congr 1
      omega
  · rw [if_neg (by simpa using hk), if_neg (by simpa using hk)]

lemma metaDict_neg_one {nslice : Nat} (h0 : 0 < nslice)
    (sp : List (String × SPVal)) :
    metaDict nslice (-1) sp = metaDict nslice ((nslice : Int) - 1) sp := by
  induction sp with
  | nil => rfl
  | cons kv rest ih =>
    unfold metaDict
    rw [metaEntry_neg_one h0 kv.2, ih]

lemma sliceSimData_neg_one (s : SpatialSlicer) (hwf : s.wf = true)
    (h0 : 0 < s.nslice) :
    sliceSimData s (-1) = sliceSimData s ((s.nslice : Int) - 1) := by
  obtain ⟨hl, hc, ⟨ras, hra, hralen⟩, ⟨des, hde, hdelen⟩⟩ := wf_parts hwf
  have e1 : (s.sliceLookup.length : Int) + (-1) = (s.nslice : Int) - 1 := by omega
  have e2 : (s.chipNamesTab.length : Int) + (-1) = (s.nslice : Int) - 1 := by omega
  have e3 : (ras.length : Int) + (-1) = (s.nslice : Int) - 1 := by omega
  have e4 : (des.length : Int) + (-1) = (s.nslice : Int) - 1 := by omega
  unfold sliceSimData
  by_cases hcam : s.useCamera = true
  · rw [if_pos hcam, if_pos hcam]
    rw [pyGet_neg s.sliceLookup (-1) (by omega) (by omega), e1]
    simp only [pyGet_neg s.chipNamesTab (-1) (by omega) (by omega), e2,
      metaDict_neg_one h0]
  · rw [if_neg hcam, if_neg hcam]
    simp only [hra, hde, spvalGet]
    rw [pyGet_neg ras (-1) (by omega) (by omega), e3]
    simp only [pyGet_neg des (-1) (by omega) (by omega), e4,
      metaDict_neg_one h0]

/-! ### Claim C1 -/

/-- Concrete well-formed two-point slicer refuting the original C1. -/
def sC1c : SpatialSlicer where
  nslice := 2
  useCamera := false
  sliceLookup := [[], []]
  chipNamesTab := [[], []]
  slicePoints := [(("sid"), SPVal.arr [SPVal.scalar 0, SPVal.scalar 1]),
                  (("ra"), SPVal.arr [SPVal.scalar 10, SPVal.scalar 20]),
                  (("dec"), SPVal.arr [SPVal.scalar 30, SPVal.scalar 40])]
  ballQuery := fun a _ =>
    match a with
    | SPVal.scalar x => [x.toNat]
    | _ => []

/-- C1, counterexample: on the concrete well-formed two-point slicer
`sC1c` the query at slice index `-1` does not raise `IndexError` (Python
list and numpy negative indexing wrap around), refuting the claim that
every slice index outside `[0, nslice)` raises `IndexError`. -/
theorem C1_counterexample :
    sC1c.wf = true ∧ 0 < sC1c.nslice ∧
      isIndexError (sliceSimData sC1c (-1)) = false :=
  ⟨by decide, by decide, by decide⟩

/-- C1 (amended): for every well-formed slicer with at least one slice
point, the per-slice-point query raises `IndexError` exactly when the
slice index is outside `[-nslice, nslice)`; in particular `query(nslice)`
raises `IndexError`, while `query(-1)` returns the same result as
`query(nslice - 1)` (Python negative indexing), hence does not raise. -/
theorem C1_amended (s : SpatialSlicer) (hwf : s.wf = true) (h0 : 0 < s.nslice) :
    (∀ islice : Int,
        isIndexError (sliceSimData s islice) = true ↔
          (islice < -(s.nslice : Int) ∨ (s.nslice : Int) ≤ islice)) ∧
    isIndexError (sliceSimData s (s.nslice : Int)) = true ∧
    sliceSimData s (-1) = sliceSimData s ((s.nslice : Int) - 1) := by
  refine ⟨?_, ?_, sliceSimData_neg_one s hwf h0⟩
  · intro islice
    constructor
    · intro herr
      by_contra hcon
      push_neg at hcon
      obtain ⟨r, hr, _⟩ := sliceSimData_ok s hwf h0 islice (by omega) (by omega)
      rw [hr] at herr
      exact Bool.noConfusion herr
    · intro h
      rw [sliceSimData_err s hwf islice h]
      rfl
  · rw [sliceSimData_err s hwf (s.nslice : Int) (Or.inr le_rfl)]
    rfl

/-- Concrete one-point footprint-mode slicer instantiating `C1_amended`. -/
def sC1w : SpatialSlicer where
  nslice := 1
  useCamera := true
  sliceLookup := [[0, 2]]
  chipNamesTab := [[some "A", some "B"]]
  slicePoints := [(("sid"), SPVal.arr [SPVal.scalar 0]),
                  (("ra"), SPVal.arr [SPVal.scalar 10]),
                  (("dec"), SPVal.arr [SPVal.scalar 30])]
  ballQuery := fun _ _ => []

/-- Witness for `C1_amended` at the concrete slicer `sC1w`. -/
theorem C1_witness :
    sC1w.wf = true ∧ 0 < sC1w.nslice ∧
    ((∀ islice : Int,
        isIndexError (sliceSimData sC1w islice) = true ↔
          (islice < -(sC1w.nslice : Int) ∨ (sC1w.nslice : Int) ≤ islice)) ∧
      isIndexError (sliceSimData sC1w (sC1w.nslice : Int)) = true ∧
      sliceSimData sC1w (-1) = sliceSimData sC1w ((sC1w.nslice : Int) - 1)) :=
  ⟨by decide, by decide, C1_amended sC1w (by decide) (by decide)⟩

/-! ### Claim C6 -/

/-- C6: for every well-formed slicer and in-range slice index, the query
succeeds, and for every key in the slice-point metadata store the result
maps the key to the per-slice-point element `slicePoints[key][islice]`
when the value's leading dimension equals `nslice`, and to the whole value
unchanged otherwise; a scalar's leading dimension counts as `0`. -/
theorem C6_query_metadata (s : SpatialSlicer) (hwf : s.wf = true)
    (islice : Nat) (hi : islice < s.nslice) (k : String) (v : SPVal)
    (hkv : (k, v) ∈ s.slicePoints) :
    (∃ r, sliceSimData s (islice : Int) = Except.ok r ∧
      (keyShape v = s.nslice →
        ∃ w, spvalGet v (islice : Int) = Except.ok w ∧ (k, w) ∈ r.slicePoint) ∧
      (keyShape v ≠ s.nslice → (k, v) ∈ r.slicePoint)) ∧
    (∀ x : Int, keyShape (SPVal.scalar x) = 0) := by
  refine ⟨?_, fun x => rfl⟩
  obtain ⟨r, hr, hmeta⟩ :=
    sliceSimData_ok s hwf (by omega) (islice : Int) (by omega) (by omega)
  refine ⟨r, hr, ?_, ?_⟩
  · intro hk
    obtain ⟨w, hw, hmem⟩ := metaDict_mem hmeta hkv
    refine ⟨w, ?_, hmem⟩
    unfold metaEntry at hw
    rw [if_pos (by simpa using hk)] at hw
    exact hw
  · intro hk
    obtain ⟨w, hw, hmem⟩ := metaDict_mem hmeta hkv
    unfold metaEntry at hw
    rw [if_neg (by simpa using hk)] at hw
    injection hw with hw2
    rw [← hw2] at hmem
    exact hmem

/-- Concrete two-point slicer whose metadata store holds both a
per-slice-point array and a shared scalar, instantiating C6. -/
def sC6 : SpatialSlicer where
  nslice := 2
  useCamera := false
  sliceLookup := [[], []]
  chipNamesTab := [[], []]
  slicePoints := [(("sid"), SPVal.arr [SPVal.scalar 0, SPVal.scalar 1]),
                  (("ra"), SPVal.arr [SPVal.scalar 10, SPVal.scalar 20]),
                  (("dec"), SPVal.arr [SPVal.scalar 30, SPVal.scalar 40]),
                  (("lf"), SPVal.scalar 5)]
  ballQuery := fun _ _ => [0]

/-- Witness for `C6_query_metadata` at the concrete slicer `sC6`, keyed at
its per-slice-point `ra` array. -/
theorem C6_witness :
    sC6.wf = true ∧ 1 < sC6.nslice ∧
    ((("ra"), SPVal.arr [SPVal.scalar 10, SPVal.scalar 20]) ∈ sC6.slicePoints) ∧
    ((∃ r, sliceSimData sC6 ((1 : Nat) : Int) = Except.ok r ∧
      (keyShape (SPVal.arr [SPVal.scalar 10, SPVal.scalar 20]) = sC6.nslice →
        ∃ w, spvalGet (SPVal.arr [SPVal.scalar 10, SPVal.scalar 20])
            ((1 : Nat) : Int) = Except.ok w ∧ (("ra"), w) ∈ r.slicePoint) ∧
      (keyShape (SPVal.arr [SPVal.scalar 10, SPVal.scalar 20]) ≠ sC6.nslice →
        (("ra"), SPVal.arr [SPVal.scalar 10, SPVal.scalar 20]) ∈ r.slicePoint)) ∧
    (∀ x : Int, keyShape (SPVal.scalar x) = 0)) :=
  ⟨by decide, by decide, List.Mem.tail _ (List.Mem.head _),
    C6_query_metadata sC6 (by decide) 1 (by decide) ("ra") _
      (List.Mem.tail _ (List.Mem.head _))⟩

/-! ### Lemmas about the footprint lookup build -/

lemma length_updList {α : Type} (l : List (List α)) (j : Nat) (x : α) :
    (updList l j x).length = l.length := by
  induction l generalizing j with
  | nil => rfl
  | cons e rest ih =>
    cases j with
    | zero => rfl
    | succ j2 => simp [updList, ih]

lemma nthList_updList_self {α : Type} (l : List (List α)) (j : Nat) (x : α)
    (h : j < l.length) :
    nthList (updList l j x) j = nthList l j ++ [x] := by
  induction l generalizing j with
  | nil => simp at h
  | cons e rest ih =>
    cases j with
    | zero => rfl
    | succ j2 =>
      exact ih j2 (by simp only [List.length_cons] at h; omega)

lemma nthList_updList_ne {α : Type} (l : List (List α)) (j i : Nat) (x : α)
    (h : j ≠ i) :
    nthList (updList l j x) i = nthList l i := by
  induction l generalizing j i with
  | nil => rfl
  | cons e rest ih =>
    cases j with
    | zero =>
      cases i with
      | zero => exact absurd rfl h
      | succ i2 => rfl
    | succ j2 =>
      cases i with
      | zero => rfl
      | succ i2 => exact ih j2 i2 (by omega)

lemma nthList_replicate {α : Type} (n i : Nat) :
    nthList (List.replicate n ([] : List α)) i = [] := by
  induction n generalizing i with
  | zero => rfl
  | succ n2 ih =>
    cases i with
    | zero => rfl
    | succ i2 => exact ih i2

lemma foldl_appendAt_fst (ps : List (Nat × Option String)) (ind : Nat)
    (st : FootState) :
    (ps.foldl (fun st2 p => appendAt st2 p.1 ind p.2) st).1
      = ps.foldl (fun acc p => updList acc p.1 ind) st.1 := by
  induction ps generalizing st with
  | nil => rfl
  | cons p ps ih => exact ih (appendAt st p.1 ind p.2)

lemma foldl_appendAt_snd (ps : List (Nat × Option String)) (ind : Nat)
    (st : FootState) :
    (ps.foldl (fun st2 p => appendAt st2 p.1 ind p.2) st).2
      = ps.foldl (fun acc p => updList acc p.1 p.2) st.2 := by
  induction ps generalizing st with
  | nil => rfl
  | cons p ps ih => exact ih (appendAt st p.1 ind p.2)

lemma foldl_updList_length_fst (ps : List (Nat × Option String)) (ind : Nat)
    (l : List (List Nat)) :
    (ps.foldl (fun acc p => updList acc p.1 ind) l).length = l.length := by
  induction ps generalizing l with
  | nil => rfl
  | cons p ps ih => rw [List.foldl_cons, ih, length_updList]

lemma foldl_updList_nth_fst (ps : List (Nat × Option String)) (ind : Nat)
    (l : List (List Nat)) (i : Nat) (hi : i < l.length) :
    nthList (ps.foldl (fun acc p => updList acc p.1 ind) l) i
      = nthList l i ++ (ps.filter (fun p => p.1 == i)).map (fun _ => ind) := by
  induction ps generalizing l with
  | nil => simp
  | cons p ps ih =>
    rw [List.foldl_cons,
      ih (updList l p.1 ind) (by rw [length_updList]; exact hi)]
    by_cases hpi : p.1 = i
    · subst hpi
      rw [nthList_updList_self l p.1 ind hi]
      simp [List.filter_cons, List.append_assoc]
    · rw [nthList_updList_ne l p.1 i ind hpi]
      have hb : (p.1 == i) = false := by simpa using hpi
      simp [List.filter_cons, hb]

lemma foldl_updList_nth_snd (ps : List (Nat × Option String))
    (l : List (List (Option String))) (i : Nat) (hi : i < l.length) :
    nthList (ps.foldl (fun acc p => updList acc p.1 p.2) l) i
      = nthList l i ++ (ps.filter (fun p => p.1 == i)).map (fun p => p.2) := by
  induction ps generalizing l with
  | nil => simp
  | cons p ps ih =>
    rw [List.foldl_cons,
      ih (updList l p.1 p.2) (by rw [length_updList]; exact hi)]
    by_cases hpi : p.1 = i
    · subst hpi
      rw [nthList_updList_self l p.1 p.2 hi]
      simp [List.filter_cons, List.append_assoc]
    · rw [nthList_updList_ne l p.1 i p.2 hpi]
      have hb : (p.1 == i) = false := by simpa using hpi
      simp [List.filter_cons, hb]

lemma entryFor_succ (cfg : FootCfg) (i n : Nat) :
    entryFor cfg i (n + 1)
      = entryFor cfg i n ++
          ((goodPairs cfg n).filter (fun p => p.1 == i)).map
            (fun p => (n, p.2)) := rfl

lemma pointingStep_fst (cfg : FootCfg) (st : FootState) (ind : Nat) :
    (pointingStep cfg st ind).1
      = (goodPairs cfg ind).foldl (fun acc p => updList acc p.1 ind) st.1 :=
  foldl_appendAt_fst _ _ _

lemma pointingStep_snd (cfg : FootCfg) (st : FootState) (ind : Nat) :
    (pointingStep cfg st ind).2
      = (goodPairs cfg ind).foldl (fun acc p => updList acc p.1 p.2) st.2 :=
  foldl_appendAt_snd _ _ _

lemma presliceFootprint_fst_length (cfg : FootCfg) (nobs : Nat) :
    (presliceFootprint cfg nobs).1.length = cfg.nslice := by
  unfold presliceFootprint
  induction nobs with
  | zero => simp
  | succ n ih =>
    rw [List.range_succ, List.foldl_append, List.foldl_cons, List.foldl_nil]
    unfold pointingStep
    rw [foldl_appendAt_fst, foldl_updList_length_fst]
    exact ih

lemma preslice_nth_fst (cfg : FootCfg) (i : Nat) (hi : i < cfg.nslice)
    (nobs : Nat) :
    nthList (presliceFootprint cfg nobs).1 i
      = (entryFor cfg i nobs).map Prod.fst := by
  induction nobs with
  | zero =>
    unfold presliceFootprint
    simp [nthList_replicate, entryFor]
  | succ n ih =>
    have hlen : (presliceFootprint cfg n).1.length = cfg.nslice :=
      presliceFootprint_fst_length cfg n
    unfold presliceFootprint at ih hlen ⊢
    rw [List.range_succ, List.foldl_append, List.foldl_cons, List.foldl_nil]
    rw [pointingStep_fst,
      foldl_updList_nth_fst (goodPairs cfg n) n _ i (by rw [hlen]; exact hi),
      ih]
    rw [entryFor_succ, List.map_append, List.map_map]
    rfl

lemma foldl_updList_length_snd (ps : List (Nat × Option String))
    (l : List (List (Option String))) :
    (ps.foldl (fun acc p => updList acc p.1 p.2) l).length = l.length := by
  induction ps generalizing l with
  | nil => rfl
  | cons p ps ih => rw [List.foldl_cons, ih, length_updList]

lemma presliceFootprint_snd_length (cfg : FootCfg) (nobs : Nat) :
    (presliceFootprint cfg nobs).2.length = cfg.nslice := by
  unfold presliceFootprint
  induction nobs with
  | zero => simp
  | succ n ih =>
    rw [List.range_succ, List.foldl_append, List.foldl_cons, List.foldl_nil]
    unfold pointingStep
    rw [foldl_appendAt_snd, foldl_updList_length_snd]
    exact ih

lemma preslice_nth_snd (cfg : FootCfg) (i : Nat) (hi : i < cfg.nslice)
    (nobs : Nat) :
    nthList (presliceFootprint cfg nobs).2 i
      = (entryFor cfg i nobs).map Prod.snd := by
  induction nobs with
  | zero =>
    unfold presliceFootprint
    simp [nthList_replicate, entryFor]
  | succ n ih =>
    have hlen2 : (presliceFootprint cfg n).2.length = cfg.nslice :=
      presliceFootprint_snd_length cfg n
    unfold presliceFootprint at ih hlen2 ⊢
    rw [List.range_succ, List.foldl_append, List.foldl_cons, List.foldl_nil]
    rw [pointingStep_snd,
      foldl_updList_nth_snd (goodPairs cfg n) _ i (by rw [hlen2]; exact hi),
      ih]
    rw [entryFor_succ, List.map_append, List.map_map]
    rfl

lemma goodKept_sublist (cfg : FootCfg) (ind : Nat) :
    List.Sublist (goodKept cfg ind)
      ((cfg.queryBall ind).map (fun j => (j, cfg.chipNameAt ind j))) := by
  unfold goodKept
  cases cfg.chipsToUse with
  | all => exact List.Sublist.refl _
  | only names => exact List.filter_sublist _

lemma goodPairs_sublist (cfg : FootCfg) (ind : Nat) :
    List.Sublist (goodPairs cfg ind)
      ((cfg.queryBall ind).map (fun j => (j, cfg.chipNameAt ind j))) := by
  unfold goodPairs
  by_cases h0 : 0 < (cfg.queryBall ind).length
  · rw [if_pos h0]
    exact (List.filter_sublist _).trans (goodKept_sublist cfg ind)
  · rw [if_neg h0]
    exact List.nil_sublist _

lemma mem_goodPairs {cfg : FootCfg} {ind : Nat} {p : Nat × Option String}
    (hp : p ∈ goodPairs cfg ind) :
    p.2.isSome = true ∧ allowPass cfg.chipsToUse p.2 = true := by
  unfold goodPairs at hp
  by_cases h0 : 0 < (cfg.queryBall ind).length
  · rw [if_pos h0] at hp
    obtain ⟨hk, hsome⟩ := List.mem_filter.mp hp
    refine ⟨hsome, ?_⟩
    unfold goodKept at hk
    cases hcu : cfg.chipsToUse with
    | all => rfl
    | only names =>
      rw [hcu] at hk
      exact (List.mem_filter.mp hk).2
  · rw [if_neg h0] at hp
    cases hp

lemma mem_entryFor {cfg : FootCfg} {i : Nat} {q : Nat × Option String} :
    ∀ {n : Nat}, q ∈ entryFor cfg i n →
      q.1 < n ∧ ∃ p ∈ goodPairs cfg q.1, (p.1 == i) = true ∧ p.2 = q.2 := by
  intro n
  induction n with
  | zero => intro h; cases h
  | succ n ih =>
    intro h
    rw [entryFor_succ] at h
    rcases List.mem_append.mp h with h1 | h1
    · obtain ⟨hlt, hp⟩ := ih h1
      exact ⟨Nat.lt_succ_of_lt hlt, hp⟩
    · obtain ⟨p, hpmem, hpeq⟩ := List.mem_map.mp h1
      obtain ⟨hpf, hpi⟩ := List.mem_filter.mp hpmem
      refine ⟨?_, p, ?_, hpi, ?_⟩
      · rw [← hpeq]
        exact Nat.lt_succ_self n
      · rw [← hpeq]
        exact hpf
      · rw [← hpeq]

lemma entryFor_fst_lt {cfg : FootCfg} {i n : Nat} {q : Nat × Option String}
    (h : q ∈ entryFor cfg i n) : q.1 < n :=
  (mem_entryFor h).1

lemma sorted_map_const {β : Type} (l : List β) (c : Nat) :
    List.Sorted (· ≤ ·) (l.map (fun _ => c)) := by
  induction l with
  | nil => exact List.sorted_nil
  | cons x l ih =>
    rw [List.map_cons]
    refine List.sorted_cons.mpr ⟨?_, ih⟩
    intro b hb
    obtain ⟨y, hy, hyeq⟩ := List.mem_map.mp hb
    exact le_of_eq hyeq

lemma entryFor_fst_sorted (cfg : FootCfg) (i : Nat) (n : Nat) :
    List.Sorted (· ≤ ·) ((entryFor cfg i n).map Prod.fst) := by
  induction n with
  | zero => exact List.sorted_nil
  | succ n ih =>
    rw [entryFor_succ, List.map_append, List.map_map]
    refine List.pairwise_append.mpr ⟨ih, ?_, ?_⟩
    · exact sorted_map_const _ n
    · intro a ha b hb
      obtain ⟨q, hq, haq⟩ := List.mem_map.mp ha
      obtain ⟨p, hp, hbp⟩ := List.mem_map.mp hb
      have h1 : a < n := haq ▸ entryFor_fst_lt hq
      have h2 : n = b := hbp
      omega

lemma pairwise_ne_fst {l : List Nat} (g : Nat → Option String)
    (hnd : l.Nodup) :
    (l.map (fun j => (j, g j))).Pairwise (fun a b => a.1 ≠ b.1) := by
  induction l with
  | nil => exact List.Pairwise.nil
  | cons x l ih =>
    rw [List.map_cons]
    obtain ⟨hx, hl⟩ := List.nodup_cons.mp hnd
    refine List.Pairwise.cons ?_ (ih hl)
    intro b hb
    obtain ⟨y, hy, hyb⟩ := List.mem_map.mp hb
    intro hcon
    rw [← hyb] at hcon
    have hxy : x = y := hcon
    exact hx (by rw [hxy]; exact hy)

lemma filter_len_le_one {l : List (Nat × Option String)} {i : Nat}
    (h : l.Pairwise (fun a b => a.1 ≠ b.1)) :
    (l.filter (fun p => p.1 == i)).length ≤ 1 := by
  induction l with
  | nil => simp
  | cons p l ih =>
    obtain ⟨hp, hl⟩ := List.pairwise_cons.mp h
    rw [List.filter_cons]
    by_cases hpi : (p.1 == i) = true
    · rw [if_pos hpi]
      have hnil : l.filter (fun q => q.1 == i) = [] := by
        refine List.filter_eq_nil_iff.mpr ?_
        intro q hq
        have hne := hp q hq
        simp only [beq_iff_eq] at hpi ⊢
        omega
      rw [hnil]
      simp
    · rw [if_neg hpi]
      exact ih hl

lemma goodPairs_filter_le_one {cfg : FootCfg} {ind i : Nat}
    (hnd : (cfg.queryBall ind).Nodup) :
    ((goodPairs cfg ind).filter (fun p => p.1 == i)).length ≤ 1 := by
  have hpw :=
    (pairwise_ne_fst (cfg.chipNameAt ind) hnd).sublist (goodPairs_sublist cfg ind)
  exact filter_len_le_one hpw

lemma sorted_of_len_le_one {l : List Nat} (h : l.length ≤ 1) :
    List.Sorted (· < ·) l := by
  cases l with
  | nil => exact List.sorted_nil
  | cons a t =>
    cases t with
    | nil => exact List.sorted_singleton a
    | cons b t2 => simp at h

lemma entryFor_fst_sorted_lt (cfg : FootCfg) (i : Nat)
    (hnd : ∀ ind : Nat, (cfg.queryBall ind).Nodup) (n : Nat) :
    List.Sorted (· < ·) ((entryFor cfg i n).map Prod.fst) := by
  induction n with
  | zero => exact List.sorted_nil
  | succ n ih =>
    rw [entryFor_succ, List.map_append, List.map_map]
    refine List.pairwise_append.mpr ⟨ih, ?_, ?_⟩
    · apply sorted_of_len_le_one
      rw [List.length_map]
      exact goodPairs_filter_le_one (hnd n)
    · intro a ha b hb
      obtain ⟨q, hq, haq⟩ := List.mem_map.mp ha
      obtain ⟨p, hp, hbp⟩ := List.mem_map.mp hb
      have h1 : a < n := haq ▸ entryFor_fst_lt hq
      have h2 : n = b := hbp
      omega

/-! ### Claim C3 -/

/-- C3: in footprint mode, after the lookup build, every chip name stored
at any slice point is not the no-detector sentinel `none`, and when a
detector allow-list other than `'all'` is configured it is a member of
that allow-list. -/
theorem C3_chip_filter (cfg : FootCfg) (nobs : Nat)
    (_hq : ∀ ind : Nat, ∀ j ∈ cfg.queryBall ind, j < cfg.nslice)
    (i : Nat) (hi : i < cfg.nslice) (ch : Option String)
    (hch : ch ∈ nthList (presliceFootprint cfg nobs).2 i) :
    ch ≠ none ∧
      ∀ names : List String, cfg.chipsToUse = ChipsToUse.only names →
        ∃ s : String, ch = some s ∧ s ∈ names := by
  rw [preslice_nth_snd cfg i hi nobs] at hch
  obtain ⟨q, hq2, hqch⟩ := List.mem_map.mp hch
  obtain ⟨_, p, hp, hpi, hp2⟩ := mem_entryFor hq2
  obtain ⟨hsome, hallow⟩ := mem_goodPairs hp
  have hchp : ch = p.2 := by rw [← hqch, ← hp2]
  obtain ⟨s, hs⟩ := Option.isSome_iff_exists.mp hsome
  constructor
  · rw [hchp, hs]
    exact Option.some_ne_none s
  · intro names hcu
    refine ⟨s, by rw [hchp, hs], ?_⟩
    rw [hcu, hs] at hallow
    simpa [allowPass] using hallow

/-- Concrete footprint configuration instantiating C3: two slice points,
allow-list `["A"]`, every candidate lands on chip `A`. -/
def cfgC3 : FootCfg where
  nslice := 2
  chipsToUse := ChipsToUse.only ["A"]
  chipNameAt := fun _ _ => some "A"
  queryBall := fun _ => [0]

/-- Witness for `C3_chip_filter` at the concrete configuration `cfgC3`. -/
theorem C3_witness :
    (∀ ind : Nat, ∀ j ∈ cfgC3.queryBall ind, j < cfgC3.nslice) ∧
    0 < cfgC3.nslice ∧
    some "A" ∈ nthList (presliceFootprint cfgC3 1).2 0 ∧
    (some "A" ≠ none ∧
      ∀ names : List String, cfgC3.chipsToUse = ChipsToUse.only names →
        ∃ s : String, some "A" = some s ∧ s ∈ names) :=
  ⟨fun ind j hj => by
      have hj2 : j = 0 := by simpa [cfgC3] using hj
      show j < 2
      omega,
    by decide, by decide,
    C3_chip_filter cfgC3 1
      (fun ind j hj => by
        have hj2 : j = 0 := by simpa [cfgC3] using hj
        show j < 2
        omega)
      0 (by decide) (some "A") (by decide)⟩

/-! ### Claim C4 -/

/-- C4: in footprint mode, after the lookup build, each slice point's
observation-index entry is sorted in non-decreasing order of original
observation position (pointings are processed in input order and matches
are appended at the end). -/
theorem C4_entries_sorted (cfg : FootCfg) (nobs : Nat)
    (_hq : ∀ ind : Nat, ∀ j ∈ cfg.queryBall ind, j < cfg.nslice)
    (i : Nat) (hi : i < cfg.nslice) :
    List.Sorted (· ≤ ·) (nthList (presliceFootprint cfg nobs).1 i) := by
  rw [preslice_nth_fst cfg i hi nobs]
  exact entryFor_fst_sorted cfg i nobs

/-- Concrete footprint configuration instantiating C4. -/
def cfgC4 : FootCfg where
  nslice := 2
  chipsToUse := ChipsToUse.all
  chipNameAt := fun ind j => if (ind + j) % 2 == 0 then some "B" else none
  queryBall := fun _ => [0, 1]

/-- Witness for `C4_entries_sorted` at the concrete configuration
`cfgC4`. -/
theorem C4_witness :
    (∀ ind : Nat, ∀ j ∈ cfgC4.queryBall ind, j < cfgC4.nslice) ∧
    0 < cfgC4.nslice ∧
    List.Sorted (· ≤ ·) (nthList (presliceFootprint cfgC4 3).1 0) :=
  ⟨fun ind j hj => by
      have hj2 : j = 0 ∨ j = 1 := by simpa [cfgC4] using hj
      show j < 2
      omega,
    by decide,
    C4_entries_sorted cfgC4 3
      (fun ind j hj => by
        have hj2 : j = 0 ∨ j = 1 := by simpa [cfgC4] using hj
        show j < 2
        omega)
      0 (by decide)⟩

/-! ### Claim C5 -/

/-- C5: in footprint mode, after the lookup build, each slice point's
observation-index entry and its chip-name entry have equal length (the
two parallel appends of lines 198-199 always run together). -/
theorem C5_parallel_lengths (cfg : FootCfg) (nobs : Nat)
    (_hq : ∀ ind : Nat, ∀ j ∈ cfg.queryBall ind, j < cfg.nslice)
    (i : Nat) (hi : i < cfg.nslice) :
    (nthList (presliceFootprint cfg nobs).1 i).length
      = (nthList (presliceFootprint cfg nobs).2 i).length := by
  rw [preslice_nth_fst cfg i hi nobs, preslice_nth_snd cfg i hi nobs,
    List.length_map, List.length_map]

/-- Concrete footprint configuration instantiating C5. -/
def cfgC5 : FootCfg where
  nslice := 3
  chipsToUse := ChipsToUse.all
  chipNameAt := fun ind j => if (ind + j) % 3 == 0 then none else some "C"
  queryBall := fun _ => [0, 1, 2]

/-- Witness for `C5_parallel_lengths` at the concrete configuration
`cfgC5`. -/
theorem C5_witness :
    (∀ ind : Nat, ∀ j ∈ cfgC5.queryBall ind, j < cfgC5.nslice) ∧
    0 < cfgC5.nslice ∧
    (nthList (presliceFootprint cfgC5 4).1 2).length
      = (nthList (presliceFootprint cfgC5 4).2 2).length :=
  ⟨fun ind j hj => by
      have hj2 : j = 0 ∨ j = 1 ∨ j = 2 := by simpa [cfgC5] using hj
      show j < 3
      omega,
    by decide,
    C5_parallel_lengths cfgC5 4
      (fun ind j hj => by
        have hj2 : j = 0 ∨ j = 1 ∨ j = 2 := by simpa [cfgC5] using hj
        show j < 3
        omega)
      2 (by decide)⟩

/-! ### Claim C10 -/

/-- C10: in footprint mode, after the lookup build, each slice point's
observation indices are pairwise distinct (the entry is strictly
increasing, each observation appearing at most once per slice point), and
every stored index is a valid observation position below the number of
observations.  The candidate lists returned by the external ball query
hold distinct indices, as scipy guarantees. -/
theorem C10_distinct_valid (cfg : FootCfg) (nobs : Nat)
    (_hq : ∀ ind : Nat, ∀ j ∈ cfg.queryBall ind, j < cfg.nslice)
    (hnd : ∀ ind : Nat, (cfg.queryBall ind).Nodup)
    (i : Nat) (hi : i < cfg.nslice) :
    List.Sorted (· < ·) (nthList (presliceFootprint cfg nobs).1 i) ∧
    (nthList (presliceFootprint cfg nobs).1 i).Nodup ∧
    ∀ x ∈ nthList (presliceFootprint cfg nobs).1 i, x < nobs := by
  rw [preslice_nth_fst cfg i hi nobs]
  have hs := entryFor_fst_sorted_lt cfg i hnd nobs
  refine ⟨hs, hs.nodup, ?_⟩
  intro x hx
  obtain ⟨q, hq2, hqx⟩ := List.mem_map.mp hx
  exact hqx ▸ entryFor_fst_lt hq2

/-- Concrete footprint configuration instantiating C10. -/
def cfgC10 : FootCfg where
  nslice := 2
  chipsToUse := ChipsToUse.all
  chipNameAt := fun _ _ => some "D"
  queryBall := fun _ => [1, 0]

/-- Witness for `C10_distinct_valid` at the concrete configuration
`cfgC10`. -/
theorem C10_witness :
    (∀ ind : Nat, ∀ j ∈ cfgC10.queryBall ind, j < cfgC10.nslice) ∧
    (∀ ind : Nat, (cfgC10.queryBall ind).Nodup) ∧
    0 < cfgC10.nslice ∧
    (List.Sorted (· < ·) (nthList (presliceFootprint cfgC10 3).1 1) ∧
      (nthList (presliceFootprint cfgC10 3).1 1).Nodup ∧
      ∀ x ∈ nthList (presliceFootprint cfgC10 3).1 1, x < 3) :=
  ⟨fun ind j hj => by
      have hj2 : j = 1 ∨ j = 0 := by simpa [cfgC10] using hj
      show j < 2
      omega,
    fun ind => by
      show List.Nodup [1, 0]
      decide,
    by decide,
    C10_distinct_valid cfgC10 3
      (fun ind j hj => by
        have hj2 : j = 1 ∨ j = 0 := by simpa [cfgC10] using hj
        show j < 2
        omega)
      (fun ind => by
        show List.Nodup [1, 0]
        decide)
      1 (by decide)⟩

/-! ### Real-valued geometry: `_treexyz`, `_setRad`, `_buildTree`,
`setupSlicer` -/

/-- `np.radians`: degrees to radians. -/
noncomputable def radiansR (d : ℝ) : ℝ := d * Real.pi / 180

/-- `_treexyz` (lines 204-210): Cartesian x/y/z for ra/dec in radians. -/
noncomputable def treexyz (ra de : ℝ) : ℝ × ℝ × ℝ :=
  (Real.cos de * Real.cos ra, Real.cos de * Real.sin ra, Real.sin de)

/-- `_setRad` (lines 229-235): Euclidean chord distance between
`(x0,y0,z0) = (1,0,0)` and `_treexyz(np.radians(radius), 0)`. -/
noncomputable def setRad (radius : ℝ) : ℝ :=
  Real.sqrt (((treexyz (radiansR radius) 0).1 - 1) ^ 2
    + ((treexyz (radiansR radius) 0).2.1 - 0) ^ 2
    + ((treexyz (radiansR radius) 0).2.2 - 0) ^ 2)

/-- The `np.any(np.abs(...) > np.pi*2.0)` test of line 217, on one
coordinate column. -/
def radiansOutOfRange (l : List ℝ) : Prop := ∃ v ∈ l, |v| > 2 * Real.pi

/-- `data = list(zip(x, y, z))` of lines 219-220: the Cartesian projection
of the zipped coordinate pairs. -/
noncomputable def treeData (ra de : List ℝ) : List (ℝ × ℝ × ℝ) :=
  (ra.zip de).map (fun p => treexyz p.1 p.2)

open Classical in
/-- `_buildTree` (lines 212-227): the radians range check, then the
emptiness check on the projected data; the k-d tree itself is external
scipy, so the validated projected point list stands for it. -/
noncomputable def buildTree (ra de : List ℝ) :
    Except PyErr (List (ℝ × ℝ × ℝ)) :=
  if radiansOutOfRange ra ∨ radiansOutOfRange de then
    Except.error (PyErr.valueError radiansMsg)
  else if 0 < (treeData ra de).length then Except.ok (treeData ra de)
  else Except.error (PyErr.valueError emptyMsg)

/-- Observation-set columns consumed by `setupSlicer`. -/
structure ObsSet : Type where
  lon : List ℝ
  lat : List ℝ

/-- Slicer configuration at `setupSlicer` time. -/
structure SetupCfg : Type where
  latLonDeg : Bool
  useCamera : Bool
  foot : FootCfg
  spRa : List ℝ
  spDec : List ℝ

/-- Outcome of a successful `setupSlicer`. -/
inductive SetupOutcome : Type where
  | footprint : FootState → SetupOutcome
  | tree : List (ℝ × ℝ × ℝ) → SetupOutcome

/-- `setupSlicer` (lines 91-117, without the closure rebinding): in
footprint mode `_presliceFootprint` builds the tree over the slice-point
coordinates (line 164) and then scans the `simData.size` pointings; in
non-footprint mode the tree is built over the observation coordinates,
converted from degrees when `latLonDeg` is set (lines 113-117). -/
noncomputable def setupSlicer (cfg : SetupCfg) (obs : ObsSet) :
    Except PyErr SetupOutcome :=
  if cfg.useCamera then
    match buildTree cfg.spRa cfg.spDec with
    | Except.error e => Except.error e
    | Except.ok _ =>
      Except.ok (SetupOutcome.footprint
        (presliceFootprint cfg.foot obs.lon.length))
  else
    match buildTree
        (if cfg.latLonDeg then obs.lon.map radiansR else obs.lon)
        (if cfg.latLonDeg then obs.lat.map radiansR else obs.lat) with
    | Except.error e => Except.error e
    | Except.ok data => Except.ok (SetupOutcome.tree data)

/-! ### Claim C9 -/

/-- C9: the Cartesian projection returns exactly
`(cos(lat)cos(lon), cos(lat)sin(lon), sin(lat))`, and the returned point
lies on the unit sphere. -/
theorem C9_unit_sphere (lon lat : ℝ) :
    treexyz lon lat
        = (Real.cos lat * Real.cos lon, Real.cos lat * Real.sin lon,
            Real.sin lat) ∧
      (treexyz lon lat).1 ^ 2 + (treexyz lon lat).2.1 ^ 2
          + (treexyz lon lat).2.2 ^ 2 = 1 := by
  refine ⟨rfl, ?_⟩
  show (Real.cos lat * Real.cos lon) ^ 2 + (Real.cos lat * Real.sin lon) ^ 2
      + Real.sin lat ^ 2 = 1
  have h1 := Real.sin_sq_add_cos_sq lon
  have h2 := Real.sin_sq_add_cos_sq lat
  linear_combination (Real.cos lat) ^ 2 * h1 + h2

/-! ### Claim C7 -/

lemma setRad_eq (r : ℝ) :
    setRad r = Real.sqrt (2 - 2 * Real.cos (radiansR r)) := by
  unfold setRad treexyz
  simp only [Real.cos_zero, Real.sin_zero, one_mul]
  congr 1
  have h := Real.sin_sq_add_cos_sq (radiansR r)
  linear_combination h

/-- C7: the angular-to-chord conversion maps 0 degrees to 0, and is
strictly increasing on the open interval (0, 180) degrees. -/
theorem C7_chord_monotone :
    setRad 0 = 0 ∧
      ∀ r1 r2 : ℝ, 0 < r1 → r1 < r2 → r2 < 180 → setRad r1 < setRad r2 := by
  have hpi := Real.pi_pos
  constructor
  · rw [setRad_eq]
    have h0 : radiansR 0 = 0 := by unfold radiansR; ring
    rw [h0, Real.cos_zero]
    norm_num
  · intro r1 r2 h1 h12 h2
    rw [setRad_eq r1, setRad_eq r2]
    have ha1 : 0 < radiansR r1 :=
      div_pos (mul_pos h1 hpi) (by norm_num)
    have ha12 : radiansR r1 < radiansR r2 := by
      unfold radiansR
      nlinarith [mul_pos (sub_pos.mpr h12) hpi]
    have ha2pi : radiansR r2 < Real.pi := by
      unfold radiansR
      rw [div_lt_iff₀ (by norm_num : (0 : ℝ) < 180)]
      nlinarith [mul_pos (sub_pos.mpr h2) hpi]
    have hcos : Real.cos (radiansR r2) < Real.cos (radiansR r1) :=
      Real.strictAntiOn_cos
        ⟨ha1.le, (ha12.trans ha2pi).le⟩
        ⟨(ha1.trans ha12).le, ha2pi.le⟩ ha12
    apply Real.sqrt_lt_sqrt
    · have := Real.cos_le_one (radiansR r1)
      linarith
    · linarith

/-- Witness for `C7_chord_monotone` at 60 and 90 degrees. -/
theorem C7_witness :
    setRad 0 = 0 ∧
      ((0 : ℝ) < 60 ∧ (60 : ℝ) < 90 ∧ (90 : ℝ) < 180) ∧
      setRad 60 < setRad 90 :=
  ⟨C7_chord_monotone.1, ⟨by norm_num, by norm_num, by norm_num⟩,
    C7_chord_monotone.2 60 90 (by norm_num) (by norm_num) (by norm_num)⟩

/-! ### Claim C8 -/

/-- C8: index construction fails with the radians `ValueError` when any
longitude or latitude has absolute value strictly above `2π`, and the
range check rejects no point set whose coordinates all lie within
`[-2π, 2π]` (such input can still fail the separate emptiness check, but
never with the radians error). -/
theorem C8_range_check :
    (∀ ra de : List ℝ, (radiansOutOfRange ra ∨ radiansOutOfRange de) →
        buildTree ra de = Except.error (PyErr.valueError radiansMsg)) ∧
    (∀ ra de : List ℝ, (∀ v ∈ ra, |v| ≤ 2 * Real.pi) →
        (∀ v ∈ de, |v| ≤ 2 * Real.pi) →
        buildTree ra de ≠ Except.error (PyErr.valueError radiansMsg)) := by
  constructor
  · intro ra de h
    unfold buildTree
    rw [if_pos h]
  · intro ra de hra hde
    have hno : ¬(radiansOutOfRange ra ∨ radiansOutOfRange de) := by
      rintro (h | h)
      · obtain ⟨v, hv, habs⟩ := h
        have := hra v hv
        linarith
      · obtain ⟨v, hv, habs⟩ := h
        have := hde v hv
        linarith
    unfold buildTree
    rw [if_neg hno]
    by_cases hlen : 0 < (treeData ra de).length
    · rw [if_pos hlen]
      intro hcon
      exact Except.noConfusion hcon
    · rw [if_neg hlen]
      intro hcon
      injection hcon with h2
      injection h2 with h3
      exact absurd h3 (by decide)

/-- Witness for `C8_range_check`: longitude 7 exceeds `2π` and is
rejected with the radians error; the in-range pair `([1], [0])` is not. -/
theorem C8_witness :
    (radiansOutOfRange [(7 : ℝ)] ∨ radiansOutOfRange [(0 : ℝ)]) ∧
    buildTree [(7 : ℝ)] [(0 : ℝ)]
      = Except.error (PyErr.valueError radiansMsg) ∧
    (∀ v ∈ [(1 : ℝ)], |v| ≤ 2 * Real.pi) ∧
    (∀ v ∈ [(0 : ℝ)], |v| ≤ 2 * Real.pi) ∧
    buildTree [(1 : ℝ)] [(0 : ℝ)]
      ≠ Except.error (PyErr.valueError radiansMsg) := by
  have hpi3 := Real.pi_gt_three
  have hpi315 := Real.pi_lt_d2
  have h7 : radiansOutOfRange [(7 : ℝ)] := by
    refine ⟨7, List.mem_singleton_self 7, ?_⟩
    rw [abs_of_nonneg (by norm_num : (0 : ℝ) ≤ 7)]
    linarith
  have h1 : ∀ v ∈ [(1 : ℝ)], |v| ≤ 2 * Real.pi := by
    intro v hv
    have hv1 : v = 1 := by simpa using hv
    rw [hv1, abs_of_nonneg (by norm_num : (0 : ℝ) ≤ 1)]
    linarith
  have h0 : ∀ v ∈ [(0 : ℝ)], |v| ≤ 2 * Real.pi := by
    intro v hv
    have hv0 : v = 0 := by simpa using hv
    rw [hv0, abs_zero]
    linarith
  exact ⟨Or.inl h7, C8_range_check.1 _ _ (Or.inl h7), h1, h0,
    C8_range_check.2 _ _ h1 h0⟩

/-! ### Claim C2 -/

/-- Trivial detector model for the C2 footprint configuration. -/
def footC2 : FootCfg where
  nslice := 1
  chipsToUse := ChipsToUse.all
  chipNameAt := fun _ _ => none
  queryBall := fun _ => []

/-- Footprint-mode setup configuration with one in-range slice point,
used for the C2 counterexample and witness. -/
noncomputable def cfgC2c : SetupCfg where
  latLonDeg := true
  useCamera := true
  foot := footC2
  spRa := [0]
  spDec := [0]

lemma buildTree_zero :
    buildTree [(0 : ℝ)] [(0 : ℝ)]
      = Except.ok (treeData [(0 : ℝ)] [(0 : ℝ)]) := by
  have hno : ¬(radiansOutOfRange [(0 : ℝ)] ∨ radiansOutOfRange [(0 : ℝ)]) := by
    rintro (h | h) <;>
      · obtain ⟨v, hv, habs⟩ := h
        have hv0 : v = 0 := by simpa using hv
        rw [hv0, abs_zero] at habs
        have := Real.pi_pos
        linarith
  unfold buildTree
  rw [if_neg hno, if_pos (by simp [treeData])]

/-- C2, counterexample: in footprint mode with a single in-range slice
point, `setupSlicer` on an empty observation set succeeds (the tree is
built over the slice points, line 164, and the pointing loop runs zero
times), refuting the claim that both modes fail on an empty observation
set. -/
theorem C2_counterexample :
    cfgC2c.useCamera = true ∧
    setupSlicer cfgC2c ⟨[], []⟩
      = Except.ok (SetupOutcome.footprint
          (List.replicate 1 [], List.replicate 1 [])) := by
  refine ⟨rfl, ?_⟩
  unfold setupSlicer
  rw [if_pos (show cfgC2c.useCamera = true from rfl)]
  have hb : buildTree cfgC2c.spRa cfgC2c.spDec
      = Except.ok (treeData [(0 : ℝ)] [(0 : ℝ)]) := buildTree_zero
  rw [hb]
  rfl

/-- C2 (amended): `setupSlicer` on an empty observation set fails with
the empty-input `ValueError` in non-footprint mode, and index
construction over an empty point sequence fails with the same error; in
footprint mode the index is built over the slice points instead, so an
empty observation set alone does not fail: with nonempty in-range
slice-point coordinates the setup succeeds. -/
theorem C2_amended :
    (∀ cfg : SetupCfg, cfg.useCamera = false →
        setupSlicer cfg ⟨[], []⟩ = Except.error (PyErr.valueError emptyMsg)) ∧
    buildTree [] [] = Except.error (PyErr.valueError emptyMsg) ∧
    (∀ cfg : SetupCfg, cfg.useCamera = true →
        ¬radiansOutOfRange cfg.spRa → ¬radiansOutOfRange cfg.spDec →
        0 < (treeData cfg.spRa cfg.spDec).length →
        ∃ st, setupSlicer cfg ⟨[], []⟩
            = Except.ok (SetupOutcome.footprint st)) := by
  have hempty : buildTree ([] : List ℝ) ([] : List ℝ)
      = Except.error (PyErr.valueError emptyMsg) := by
    have hno : ¬(radiansOutOfRange ([] : List ℝ)
        ∨ radiansOutOfRange ([] : List ℝ)) := by
      rintro (h | h) <;>
        · obtain ⟨v, hv, _⟩ := h
          cases hv
    unfold buildTree
    rw [if_neg hno, if_neg (by simp [treeData])]
  refine ⟨?_, hempty, ?_⟩
  · intro cfg hcam
    unfold setupSlicer
    rw [if_neg (by simp [hcam])]
    have hmap : (if cfg.latLonDeg then List.map radiansR [] else ([] : List ℝ))
        = [] := by
      cases cfg.latLonDeg <;> simp
    show (match buildTree
        (if cfg.latLonDeg then List.map radiansR [] else [])
        (if cfg.latLonDeg then List.map radiansR [] else []) with
      | Except.error e => Except.error e
      | Except.ok data => Except.ok (SetupOutcome.tree data))
      = Except.error (PyErr.valueError emptyMsg)
    rw [hmap, hempty]
  · intro cfg hcam hra hde hlen
    refine ⟨presliceFootprint cfg.foot 0, ?_⟩
    unfold setupSlicer
    rw [if_pos hcam]
    have hb : buildTree cfg.spRa cfg.spDec
        = Except.ok (treeData cfg.spRa cfg.spDec) := by
      unfold buildTree
      rw [if_neg (by rintro (h | h); exacts [hra h, hde h]), if_pos hlen]
    rw [hb]
    rfl

/-- Non-footprint setup configuration instantiating the failing branch of
`C2_amended`. -/
noncomputable def cfgC2w : SetupCfg where
  latLonDeg := true
  useCamera := false
  foot := footC2
  spRa := []
  spDec := []

/-- Witness for `C2_amended`: the non-footprint configuration `cfgC2w`
fails on the empty observation set, and the footprint configuration
`cfgC2c` succeeds on it. -/
theorem C2_witness :
    cfgC2w.useCamera = false ∧
    setupSlicer cfgC2w ⟨[], []⟩ = Except.error (PyErr.valueError emptyMsg) ∧
    cfgC2c.useCamera = true ∧
    (¬radiansOutOfRange cfgC2c.spRa) ∧
    (¬radiansOutOfRange cfgC2c.spDec) ∧
    0 < (treeData cfgC2c.spRa cfgC2c.spDec).length ∧
    (∃ st, setupSlicer cfgC2c ⟨[], []⟩
        = Except.ok (SetupOutcome.footprint st)) := by
  have hra : ¬radiansOutOfRange cfgC2c.spRa := by
    intro h
    obtain ⟨v, hv, habs⟩ := h
    have hv0 : v = 0 := by simpa [cfgC2c] using hv
    rw [hv0, abs_zero] at habs
    have := Real.pi_pos
    linarith
  have hde : ¬radiansOutOfRange cfgC2c.spDec := hra
  have hlen : 0 < (treeData cfgC2c.spRa cfgC2c.spDec).length := by
    show 0 < (treeData [(0 : ℝ)] [(0 : ℝ)]).length
    simp [treeData]
  exact ⟨rfl, C2_amended.1 cfgC2w rfl, rfl, hra, hde, hlen,
    C2_amended.2.2 cfgC2c rfl hra hde hlen⟩

end SimsMaf
